import Mathlib

/-!
Verification of the bestDeal catalog scraper (Go backend) against its
natural-language specification.  The Go source is shallowly embedded:

* pure string manipulation (`extractPageNumber`, `buildPageURL`) is embedded
  as executable functions on `List Char`, replicating the semantics of the
  fixed regular expressions `/page/(\d+)` (leftmost match, greedy digit run)
  and `ReplaceAllString` (all non-overlapping leftmost matches);
* the in-browser JavaScript of `extractImageFromPage` is embedded over an
  abstract rendered `Document` (the image list and a `querySelector` oracle);
* the page-iteration loop of `scrapeCatalogPages` and the per-page phases of
  `ScrapeAndDownloadFromConfig` are embedded with the network effects
  (chromedp renders, HTTP GETs, filesystem calls) as explicit oracles;
* `downloadImage` is embedded together with an explicit destination-file
  state so that claims about partial files are statable.
-/

namespace BestDeal

/-! ### URL templater (`extractPageNumber`, `buildPageURL`) -/

/-- The literal part of the page pattern `/page/\d+`. -/
def pagePat : List Char := "/page/".data

/-- Whether the regex `/page/\d+` matches at the start of `t`
(the literal marker followed by at least one digit). -/
def matchAt (t : List Char) : Bool :=
  pagePat.isPrefixOf t &&
    (match t.drop pagePat.length with
     | c :: _ => c.isDigit
     | [] => false)

/-- Decimal value of a digit run, as computed by Go's `strconv.Atoi`
(the run is always non-empty digits here; overflow of Go's `int` is not
modelled, the value is kept in `Nat`). -/
def digitsToNat (ds : List Char) : Nat :=
  ds.foldl (fun n c => n * 10 + (c.toNat - '0'.toNat)) 0

/-- Whether a character list starts with a digit (`false` on the empty
list); used to state that a digit run is maximal. -/
def headDigit : List Char → Bool
  | [] => false
  | c :: _ => c.isDigit

/-- Scan for the leftmost match of `/page/(\d+)` and return the value of its
digit group, as `regexp.FindStringSubmatch` + `strconv.Atoi` do in
`extractPageNumber` (src/unnamed/part_002, lines 110-117).
`none` models the "page number not found in URL" error. -/
def extractAux : List Char → Option Nat
  | [] => none
  | c :: rest =>
    if matchAt (c :: rest) then
      some (digitsToNat (((c :: rest).drop pagePat.length).takeWhile Char.isDigit))
    else
      extractAux rest

/-- Go `extractPageNumber(pageURL string) (int, error)`. -/
def extractPageNumber (pageURL : String) : Option Nat :=
  extractAux pageURL.data

/-- Replace every non-overlapping leftmost match of `/page/\d+` by
`"/page/" ++ new`, as `regexp.MustCompile("/page/\\d+").ReplaceAllString`
does in `buildPageURL` (src/unnamed/part_002, lines 119-123).
`fuel` only bounds the recursion (one unit per consumed character);
`s.length` units always suffice. -/
def buildAuxF (new : List Char) : Nat → List Char → List Char
  | 0, s => s
  | _ + 1, [] => []
  | fuel + 1, c :: rest =>
    if matchAt (c :: rest) then
      pagePat ++ new ++
        buildAuxF new fuel
          ((c :: rest).drop
            (pagePat.length + (((c :: rest).drop pagePat.length).takeWhile Char.isDigit).length))
    else
      c :: buildAuxF new fuel rest

/-- Replace-all at the list level, with adequate fuel. -/
def buildAuxL (new : List Char) (s : List Char) : List Char :=
  buildAuxF new s.length s

/-- Go `buildPageURL(templateURL string, pageNum int) string`:
substitutes `fmt.Sprintf("/page/%d", pageNum)` for every occurrence of
`/page/\d+`. -/
def buildPageURL (templateURL : String) (pageNum : Nat) : String :=
  String.mk (buildAuxL (Nat.repr pageNum).data templateURL.data)

/-! ### Image locator (the JavaScript evaluated by `extractImageFromPage`,
src/unnamed/part_002, lines 126-202) -/

/-- An `<img>` element of the rendered document, with the fields the
JavaScript reads. -/
structure Img where
  naturalWidth : Nat
  width : Nat
  naturalHeight : Nat
  height : Nat
  src : String
deriving DecidableEq

/-- A rendered document: the list of all images in document order
(`document.querySelectorAll('img')`) and the CSS-selector oracle
(`document.querySelector(sel)`, returning the first element matching
`sel`, or nothing). -/
structure Document where
  imgs : List Img
  querySelector : String → Option Img

/-- JavaScript `a || b` on numbers (`0` is falsy). -/
def jsOr (a b : Nat) : Nat := if a = 0 then b else a

/-- `img.naturalWidth || img.width || 0` (filter step). -/
def effWidth (im : Img) : Nat := jsOr im.naturalWidth (jsOr im.width 0)

/-- `img.naturalHeight || img.height || 0` (filter step). -/
def effHeight (im : Img) : Nat := jsOr im.naturalHeight (jsOr im.height 0)

/-- `(img.naturalWidth || img.width) * (img.naturalHeight || img.height)`
(the comparator's area). -/
def area (im : Img) : Nat :=
  jsOr im.naturalWidth im.width * jsOr im.naturalHeight im.height

/-- The size filter: images whose effective width and height both
exceed 500px. -/
def largeImages (d : Document) : List Img :=
  d.imgs.filter (fun im => decide (500 < effWidth im) && decide (500 < effHeight im))

/-- Comparator fold: JavaScript sorts `largeImages` descending by area with a
stable sort and takes element `[0]`; that element is the first image of the
list attaining the maximal area, which this fold computes. -/
def pickLargest : List Img → Option Img
  | [] => none
  | x :: xs => some (xs.foldl (fun best im => if area best < area im then im else best) x)

/-- Substring test on `List Char` (JavaScript `String.prototype.includes`). -/
def listContainsSub (pat : List Char) : List Char → Bool
  | [] => pat.isEmpty
  | c :: rest => pat.isPrefixOf (c :: rest) || listContainsSub pat rest

/-- `s.includes(pat)`. -/
def containsSub (s pat : String) : Bool := listContainsSub pat.data s.data

/-- The fixed, ordered selector fallback list of the JavaScript. -/
def selectors : List String :=
  ["img.flyer-image",
   "img[class*=\"flyer\"]",
   "img[class*=\"catalog\"]",
   "div.flyer-container img",
   "div[class*=\"flyer\"] img",
   "div[class*=\"catalog\"] img",
   "main img",
   "article img"]

/-- One selector attempt: `document.querySelector(sel)` followed by
`img && img.src && !img.src.includes('.svg')`. -/
def selSrc (d : Document) (sel : String) : Option String :=
  match d.querySelector sel with
  | some im => if im.src ≠ "" ∧ containsSub im.src ".svg" = false then some im.src else none
  | none => none

/-- The selector loop: return the first selector whose match passes the
source checks, else the empty string. -/
def chainFirst (d : Document) : List String → String
  | [] => ""
  | sel :: rest =>
    match selSrc d sel with
    | some u => u
    | none => chainFirst d rest

/-- The whole evaluated JavaScript: size-ranked scan first, selector chain
as fallback, `''` if everything fails. -/
def jsLocate (d : Document) : String :=
  match pickLargest (largeImages d) with
  | some im => im.src
  | none => chainFirst d selectors

/-! ### Coordinator page iteration (`scrapeCatalogPages`,
src/backend/scraper.go, lines 427-472)

The chromedp navigate/evaluate of page `n` is abstracted by the oracle
`resolve n : Option String` (`none` = `chromedp.Run` returned an error;
`some s` = the selector expression evaluated to the raw string `s`).
The loop body increments `emptyCount` both on an error and on an
empty trimmed string, resets it on a fresh image URL, breaks after the
third consecutive empty resolution, and breaks immediately on a URL
already in `seen`.  The function returns the list of page numbers the
loop visited together with the collected `catalog.PageImages`. -/

/-- Go `strings.TrimSpace` (restricted to ASCII whitespace, which is all the
evaluated selector expressions produce around a URL). -/
def trimSpace (s : String) : String :=
  String.mk ((s.data.dropWhile Char.isWhitespace).reverse.dropWhile Char.isWhitespace).reverse

/-- One run of the `for page := 1; page <= config.MaxPages; page++` loop,
starting at page `page` with `fuel` iterations left, the `seen` set and the
current `emptyCount`. -/
def scrapeLoop (resolve : Nat → Option String) :
    Nat → Nat → List String → Nat → List Nat × List String
  | 0, _, _, _ => ([], [])
  | fuel + 1, page, seen, emptyCount =>
    match resolve page with
    | none =>
      if 3 ≤ emptyCount + 1 then ([page], [])
      else
        let r := scrapeLoop resolve fuel (page + 1) seen (emptyCount + 1)
        (page :: r.1, r.2)
    | some s =>
      let u := trimSpace s
      if u = "" then
        if 3 ≤ emptyCount + 1 then ([page], [])
        else
          let r := scrapeLoop resolve fuel (page + 1) seen (emptyCount + 1)
          (page :: r.1, r.2)
      else if seen.contains u then ([page], [])
      else
        let r := scrapeLoop resolve fuel (page + 1) (u :: seen) 0
        (page :: r.1, u :: r.2)

/-- The page-by-page part of `scrapeCatalogPages`: pages `1 .. maxPages`
(`config.MaxPages`), empty `seen` map, `emptyCount = 0`.  (Title/date
extraction and the whole-page fallback of lines 474-499 visit no numbered
page and are not modelled.) -/
def scrapeCatalogPages (resolve : Nat → Option String) (maxPages : Nat) :
    List Nat × List String :=
  scrapeLoop resolve maxPages 1 [] 0

/-- What page `n` "resolves to": the trimmed evaluated string if the render
succeeded and the trimmed string is non-empty, else nothing. -/
def resolvedURL (resolve : Nat → Option String) (n : Nat) : Option String :=
  match resolve n with
  | none => none
  | some s => if trimSpace s = "" then none else some (trimSpace s)

/-! ### Download phase (`downloadCatalogImages` and `sortPages`,
src/backend/scraper.go, lines 509-577) -/

/-- `Page` of src/unnamed/part_004 (the Go `PageNumber int` is a positive
page index here, so `Nat`). -/
structure Page where
  pageNumber : Nat
  imageURL : String
deriving DecidableEq

/-- `fmt.Sprintf("%02d", n)`-style zero padding to width 2. -/
def pad2 (n : Nat) : String :=
  if n < 10 then "0" ++ Nat.repr n else Nat.repr n

/-- The `Page` value appended for loop index `num` (page number `num + 1`):
`fmt.Sprintf("/newsletters/%s/%s", id, fmt.Sprintf("page-%02d.jpg", num+1))`. -/
def mkPage (id : String) (num : Nat) : Page :=
  { pageNumber := num + 1,
    imageURL := "/newsletters/" ++ id ++ "/page-" ++ pad2 (num + 1) ++ ".jpg" }

/-- The goroutine-spawning loop of `downloadCatalogImages` in canonical
(program) order: index `i` over `catalog.PageImages`, stopping at
`config.MaxPages`; a page joins `pages` exactly when its `downloadImage`
call succeeds (`dlOk i url`).  The actual `pages` slice is an arbitrary
permutation of this list, one entry appended per completed goroutine under
the mutex. -/
def downloadLoop (id : String) (dlOk : Nat → String → Bool) (maxPages : Nat) :
    Nat → List String → List Page
  | _, [] => []
  | i, url :: rest =>
    if maxPages ≤ i then []
    else
      (if dlOk i url then [mkPage id i] else []) ++
        downloadLoop id dlOk maxPages (i + 1) rest

/-- Canonical-order content of the `pages` slice after `wg.Wait()`. -/
def downloadPhase (id : String) (pageImages : List String) (maxPages : Nat)
    (dlOk : Nat → String → Bool) : List Page :=
  downloadLoop id dlOk maxPages 0 pageImages

/-- One pass `for j := i+1; j < len; j++ { if a[i].PageNumber > a[j].PageNumber
{ swap } }` of `sortPages`, restricted to the suffix starting at `i`: the
running element `x` plays the role of `a[i]`; on a swap the old `a[i]` stays
at position `j`.  Returns the final `a[i]` and the final suffix `a[i+1..]`. -/
def selectMin (x : Page) : List Page → Page × List Page
  | [] => (x, [])
  | y :: ys =>
    if y.pageNumber < x.pageNumber then
      let r := selectMin y ys
      (r.1, x :: r.2)
    else
      let r := selectMin x ys
      (r.1, y :: r.2)

/-- The outer loop of `sortPages` as recursion on the suffix (position `i`
is final once its pass ends); `fuel` bounds the number of passes,
`l.length` always suffices. -/
def sortPagesAux : Nat → List Page → List Page
  | 0, l => l
  | _ + 1, [] => []
  | fuel + 1, x :: xs =>
    let r := selectMin x xs
    r.1 :: sortPagesAux fuel r.2

/-- Go `sortPages(pages []Page)` (src/backend/scraper.go, lines 569-577):
in-place exchange sort by `PageNumber`, as a function on lists. -/
def sortPages (pages : List Page) : List Page :=
  sortPagesAux pages.length pages

/-- The ordering key used by `sortPages`. -/
def pageLE (p q : Page) : Prop := p.pageNumber ≤ q.pageNumber

instance : DecidableRel pageLE := fun p q => Nat.decLe p.pageNumber q.pageNumber

instance : IsTotal Page pageLE := ⟨fun p q => Nat.le_total p.pageNumber q.pageNumber⟩

instance : IsTrans Page pageLE := ⟨fun _ _ _ h1 h2 => Nat.le_trans h1 h2⟩

/-- Modelled from the spec: "replace with a standard stable sort by key"
(design note in spec.md §9).  Insertion sort by the page-number key is the
standard stable sort this refers to; it keeps elements with equal keys in
their original relative order. -/
def specStableSortByPageNumber (pages : List Page) : List Page :=
  List.insertionSort pageLE pages

/-! ### Asset fetcher (`downloadImage`, src/unnamed/part_002, lines 205-224)

An HTTP GET either fails on transport (`Except.error`) or yields a response
with a status code and a byte body.  The destination-file state is threaded
explicitly: `prior` is the content before the call (`none` = no file), the
second component of the result is the content after the call.  `os.Create`
truncates the file before any byte is copied; `copyFail = some k` models
`io.Copy` failing after `k` bytes were written, `none` a complete copy.
No cleanup is performed on any path. -/

/-- An HTTP response: status code and body bytes. -/
structure HTTPResponse where
  statusCode : Nat
  body : List Nat
deriving DecidableEq

/-- Go `downloadImage(imageURL, filePath string) error`, with the
destination-file content made explicit. -/
def downloadImage (get : Except String HTTPResponse) (createOk : Bool)
    (copyFail : Option Nat) (prior : Option (List Nat)) :
    Except String Unit × Option (List Nat) :=
  match get with
  | .error e => (.error e, prior)
  | .ok resp =>
    if resp.statusCode ≠ 200 then
      (.error ("HTTP " ++ Nat.repr resp.statusCode), prior)
    else if createOk = false then (.error "create failed", prior)
    else
      match copyFail with
      | some k => (.error "copy failed", some (resp.body.take k))
      | none => (.ok (), some resp.body)

/-! ### Acquisition run (`ScrapeAndDownloadFromConfig`,
src/unnamed/part_002, lines 21-107) -/

/-- `ScraperConfig` of src/backend/config.go. -/
structure ScraperConfig where
  ID : String
  CoverImage : String
  FirstPage : String
  LastPage : String
deriving DecidableEq

/-- The observable outcome of a successful run: whether the cover image was
downloaded, and which page numbers were downloaded. -/
structure RunResult where
  coverSaved : Bool
  pages : List Nat
deriving DecidableEq

/-- Destination path of the cover image. -/
def coverImagePath (id : String) : String :=
  "../newsletters/" ++ id ++ "/cover-image.jpg"

/-- `fmt.Sprintf("%03d", n)`-style zero padding to width 3. -/
def pad3 (n : Nat) : String :=
  if n < 10 then "00" ++ Nat.repr n
  else if n < 100 then "0" ++ Nat.repr n
  else Nat.repr n

/-- Destination path of page `p` (`page-%03d.jpg` under `pages/`). -/
def pageImagePath (id : String) (p : Nat) : String :=
  "../newsletters/" ++ id ++ "/pages/page-" ++ pad3 p ++ ".jpg"

/-- The sequential per-page loop of `ScrapeAndDownloadFromConfig`
(lines 81-103): page `p`, then `p+1`, ..., `fuel` iterations in total;
`render u` is the outcome of `extractImageFromPage` on page URL `u`
(`Except.error` = render error or no image found), `dl u path` the success
of `downloadImage(u, path)`.  A page joins the result exactly when both
succeed; any failure only skips that page. -/
def runPagesLoop (firstPage id : String) (render : String → Except String String)
    (dl : String → String → Bool) : Nat → Nat → List Nat
  | 0, _ => []
  | fuel + 1, p =>
    (match render (buildPageURL firstPage p) with
     | .error _ => []
     | .ok u => if dl u (pageImagePath id p) then [p] else []) ++
      runPagesLoop firstPage id render dl fuel (p + 1)

/-- Whether page `p` of the run succeeds end-to-end. -/
def pageSuccess (cfg : ScraperConfig) (render : String → Except String String)
    (dl : String → String → Bool) (p : Nat) : Bool :=
  match render (buildPageURL cfg.FirstPage p) with
  | .error _ => false
  | .ok u => dl u (pageImagePath cfg.ID p)

/-- Go `ScrapeAndDownloadFromConfig(configPath string) error`
(src/unnamed/part_002, lines 21-107), with its environment as oracles:
`loadResult` the outcome of `LoadScraperConfig`, `mkdirOk` of
`os.MkdirAll`, `render` of `extractImageFromPage` per page URL, `dl` of
`downloadImage` per (URL, path).  The cover attempt only logs warnings;
the run errors on a failed config load, failed directory creation, or a
failed `extractPageNumber` on the first/last page URL, and otherwise
returns the downloaded pages. -/
def ScrapeAndDownloadFromConfig (loadResult : Except String ScraperConfig)
    (mkdirOk : Bool) (render : String → Except String String)
    (dl : String → String → Bool) : Except String RunResult :=
  match loadResult with
  | .error e => .error ("failed to load config: " ++ e)
  | .ok config =>
    if mkdirOk = false then .error "failed to create directories"
    else
      let coverSaved :=
        match render config.CoverImage with
        | .error _ => false
        | .ok u => dl u (coverImagePath config.ID)
      match extractPageNumber config.FirstPage with
      | none => .error "failed to parse first page number"
      | some firstPageNum =>
        match extractPageNumber config.LastPage with
        | none => .error "failed to parse last page number"
        | some lastPageNum =>
          .ok { coverSaved := coverSaved,
                pages := runPagesLoop config.FirstPage config.ID render dl
                  (lastPageNum + 1 - firstPageNum) firstPageNum }

/-! ## Helper lemmas: the exchange sort `sortPages` -/

theorem selectMin_length (x : Page) (xs : List Page) :
    (selectMin x xs).2.length = xs.length := by
  induction xs generalizing x with
  | nil => rfl
  | cons y ys ih =>
    by_cases h : y.pageNumber < x.pageNumber
    · simp [selectMin, if_pos h, ih y]
    · simp [selectMin, if_neg h, ih x]

theorem selectMin_perm (x : Page) (xs : List Page) :
    List.Perm ((selectMin x xs).1 :: (selectMin x xs).2) (x :: xs) := by
  induction xs generalizing x with
  | nil => exact List.Perm.refl _
  | cons y ys ih =>
    by_cases h : y.pageNumber < x.pageNumber
    · simp only [selectMin, if_pos h]
      exact (List.Perm.swap x (selectMin y ys).1 (selectMin y ys).2).trans ((ih y).cons x)
    · simp only [selectMin, if_neg h]
      exact ((List.Perm.swap y (selectMin x ys).1 (selectMin x ys).2).trans
        ((ih x).cons y)).trans (List.Perm.swap x y ys)

theorem selectMin_le (x : Page) (xs : List Page) :
    (selectMin x xs).1.pageNumber ≤ x.pageNumber ∧
      ∀ y ∈ (selectMin x xs).2, (selectMin x xs).1.pageNumber ≤ y.pageNumber := by
  induction xs generalizing x with
  | nil => exact ⟨Nat.le_refl _, by simp [selectMin]⟩
  | cons y ys ih =>
    by_cases h : y.pageNumber < x.pageNumber
    · simp only [selectMin, if_pos h]
      obtain ⟨h1, h2⟩ := ih y
      refine ⟨Nat.le_trans h1 (Nat.le_of_lt h), ?_⟩
      intro z hz
      rcases List.mem_cons.1 hz with rfl | hz
      · exact Nat.le_trans h1 (Nat.le_of_lt h)
      · exact h2 z hz
    · simp only [selectMin, if_neg h]
      obtain ⟨h1, h2⟩ := ih x
      refine ⟨h1, ?_⟩
      intro z hz
      rcases List.mem_cons.1 hz with rfl | hz
      · exact Nat.le_trans h1 (Nat.le_of_not_lt h)
      · exact h2 z hz

theorem sortPagesAux_perm :
    ∀ (fuel : Nat) (l : List Page), l.length ≤ fuel →
      List.Perm (sortPagesAux fuel l) l := by
  intro fuel
  induction fuel with
  | zero => intro l _; exact List.Perm.refl _
  | succ n ih =>
    intro l hl
    cases l with
    | nil => exact List.Perm.refl _
    | cons x xs =>
      simp only [sortPagesAux]
      have hlen : (selectMin x xs).2.length ≤ n := by
        rw [selectMin_length]
        exact Nat.le_of_succ_le_succ (by simpa using hl)
      exact ((ih _ hlen).cons _).trans (selectMin_perm x xs)

theorem sortPagesAux_sorted :
    ∀ (fuel : Nat) (l : List Page), l.length ≤ fuel →
      List.Pairwise pageLE (sortPagesAux fuel l) := by
  intro fuel
  induction fuel with
  | zero =>
    intro l hl
    have : l = [] := List.length_eq_zero.1 (Nat.le_zero.1 hl)
    subst this
    exact List.Pairwise.nil
  | succ n ih =>
    intro l hl
    cases l with
    | nil => exact List.Pairwise.nil
    | cons x xs =>
      simp only [sortPagesAux]
      have hlen : (selectMin x xs).2.length ≤ n := by
        rw [selectMin_length]
        exact Nat.le_of_succ_le_succ (by simpa using hl)
      refine List.pairwise_cons.2 ⟨?_, ih _ hlen⟩
      intro y hy
      have : y ∈ (selectMin x xs).2 := (sortPagesAux_perm n _ hlen).subset hy
      exact (selectMin_le x xs).2 y this

theorem sortPages_perm (l : List Page) : List.Perm (sortPages l) l :=
  sortPagesAux_perm l.length l (Nat.le_refl _)

theorem sortPages_sorted (l : List Page) : List.Pairwise pageLE (sortPages l) :=
  sortPagesAux_sorted l.length l (Nat.le_refl _)

/-- Two sorted permutations of each other agree when the page numbers are
pairwise distinct. -/
theorem sorted_unique_of_nodup_keys :
    ∀ {l₁ l₂ : List Page}, List.Perm l₁ l₂ →
      List.Pairwise pageLE l₁ → List.Pairwise pageLE l₂ →
      (l₁.map Page.pageNumber).Nodup → l₁ = l₂ := by
  intro l₁
  induction l₁ with
  | nil => intro l₂ hp _ _ _; exact hp.nil_eq
  | cons a t₁ ih =>
    intro l₂ hp hs₁ hs₂ hnd
    cases l₂ with
    | nil => exact absurd hp.symm.nil_eq (by simp)
    | cons b t₂ =>
      have hab : a = b := by
        have hbmem : b ∈ a :: t₁ := hp.symm.subset (List.mem_cons_self b t₂)
        rcases List.mem_cons.1 hbmem with h | h
        · exact h.symm
        · have h1 : pageLE a b := (List.pairwise_cons.1 hs₁).1 b h
          have hamem : a ∈ b :: t₂ := hp.subset (List.mem_cons_self a t₁)
          rcases List.mem_cons.1 hamem with h' | h'
          · exact h'
          · have h2 : pageLE b a := (List.pairwise_cons.1 hs₂).1 a h'
            have heq : a.pageNumber = b.pageNumber := Nat.le_antisymm h1 h2
            exfalso
            have hmem : b.pageNumber ∈ t₁.map Page.pageNumber :=
              List.mem_map_of_mem _ h
            rw [List.map_cons, List.nodup_cons] at hnd
            exact hnd.1 (heq ▸ hmem)
      subst hab
      have ht : List.Perm t₁ t₂ := hp.cons_inv
      rw [List.map_cons, List.nodup_cons] at hnd
      have := ih ht (List.pairwise_cons.1 hs₁).2 (List.pairwise_cons.1 hs₂).2 hnd.2
      rw [this]

/-- Sorted by `pageLE` with pairwise-distinct keys gives strictly increasing
keys. -/
theorem keys_strict_of_sorted_nodup {l : List Page}
    (hs : List.Pairwise pageLE l) (hnd : (l.map Page.pageNumber).Nodup) :
    List.Pairwise (· < ·) (l.map Page.pageNumber) := by
  have h1 : List.Pairwise (· ≤ ·) (l.map Page.pageNumber) :=
    List.pairwise_map.2 (hs.imp (fun h => h))
  have h2 : List.Pairwise (· ≠ ·) (l.map Page.pageNumber) := hnd
  exact (h1.and h2).imp (fun h => Nat.lt_of_le_of_ne h.1 h.2)

/-! ## Helper lemmas: the download phase -/

theorem downloadLoop_mem_lt (id : String) (dl : Nat → String → Bool) (mp : Nat) :
    ∀ (urls : List String) (i : Nat) (p : Page),
      p ∈ downloadLoop id dl mp i urls → i < p.pageNumber := by
  intro urls
  induction urls with
  | nil => intro i p h; simp [downloadLoop] at h
  | cons u rest ih =>
    intro i p h
    simp only [downloadLoop] at h
    by_cases hmp : mp ≤ i
    · simp [if_pos hmp] at h
    · rw [if_neg hmp] at h
      rcases List.mem_append.1 h with h | h
      · by_cases hdl : dl i u
        · rw [if_pos hdl] at h
          rcases List.mem_singleton.1 h with rfl
          exact Nat.lt_succ_self i
        · simp [if_neg hdl] at h
      · exact Nat.lt_of_succ_lt (ih (i + 1) p h)

theorem downloadLoop_keys_sorted (id : String) (dl : Nat → String → Bool) (mp : Nat) :
    ∀ (urls : List String) (i : Nat),
      List.Pairwise (· < ·) ((downloadLoop id dl mp i urls).map Page.pageNumber) := by
  intro urls
  induction urls with
  | nil => intro i; simp [downloadLoop]
  | cons u rest ih =>
    intro i
    simp only [downloadLoop]
    by_cases hmp : mp ≤ i
    · simp [if_pos hmp]
    · rw [if_neg hmp]
      by_cases hdl : dl i u
      · rw [if_pos hdl]
        simp only [List.singleton_append, List.map_cons]
        refine List.pairwise_cons.2 ⟨?_, ih (i + 1)⟩
        intro k hk
        rcases List.mem_map.1 hk with ⟨p, hp, rfl⟩
        simpa [mkPage] using downloadLoop_mem_lt id dl mp rest (i + 1) p hp
      · rw [if_neg hdl]
        simpa using ih (i + 1)

/-! ## Claims C3 and C9 -/

/-- C3: for every run of the download phase, regardless of the order in which
the bounded-parallel downloads complete (any permutation `arrival` of the
successfully downloaded pages), the page numbers of the final page sequence
`sortPages arrival` are strictly increasing, hence without duplicates. -/
theorem download_order_reconstructed (id : String) (urls : List String)
    (maxPages : Nat) (dlOk : Nat → String → Bool) (arrival : List Page)
    (harr : List.Perm arrival (downloadPhase id urls maxPages dlOk)) :
    List.Pairwise (· < ·) ((sortPages arrival).map Page.pageNumber) := by
  have hkeys0 : List.Pairwise (· < ·)
      ((downloadPhase id urls maxPages dlOk).map Page.pageNumber) :=
    downloadLoop_keys_sorted id dlOk maxPages urls 0
  have hnd0 : ((downloadPhase id urls maxPages dlOk).map Page.pageNumber).Nodup :=
    hkeys0.imp Nat.ne_of_lt
  have hndarr : (arrival.map Page.pageNumber).Nodup :=
    ((harr.map Page.pageNumber).nodup_iff).2 hnd0
  have hnds : ((sortPages arrival).map Page.pageNumber).Nodup :=
    (((sortPages_perm arrival).map Page.pageNumber).nodup_iff).2 hndarr
  exact keys_strict_of_sorted_nodup (sortPages_sorted arrival) hnds

/-- Witness for C3: a concrete out-of-order arrival of two downloaded pages. -/
theorem download_order_reconstructed_witness :
    List.Pairwise (· < ·)
      ((sortPages [mkPage "n" 1, mkPage "n" 0]).map Page.pageNumber) :=
  download_order_reconstructed "n" ["u", "v"] 5 (fun _ _ => true)
    [mkPage "n" 1, mkPage "n" 0] (by decide)

/-- C9 counterexample: on a list with a duplicated page number, the source's
exchange sort and the standard stable sort by page number disagree (the
exchange sort reverses the two equal-key pages). -/
theorem sortPages_ne_stable_sort :
    sortPages [⟨2, "a"⟩, ⟨2, "b"⟩, ⟨1, "c"⟩] ≠
      specStableSortByPageNumber [⟨2, "a"⟩, ⟨2, "b"⟩, ⟨1, "c"⟩] := by decide

/-- C9 (amended): for every list of pages with pairwise-distinct page
numbers — which is all the download phase ever feeds it — the manual
exchange sort agrees with the standard stable sort by the page-number key. -/
theorem sortPages_eq_stable_sort_of_nodup (l : List Page)
    (hnd : (l.map Page.pageNumber).Nodup) :
    sortPages l = specStableSortByPageNumber l := by
  refine sorted_unique_of_nodup_keys ?_ (sortPages_sorted l) ?_ ?_
  · exact (sortPages_perm l).trans (List.perm_insertionSort pageLE l).symm
  · exact List.sorted_insertionSort pageLE l
  · exact (((sortPages_perm l).map Page.pageNumber).nodup_iff).2 hnd

/-- Witness for C9 (amended): a concrete list with distinct page numbers. -/
theorem sortPages_eq_stable_sort_witness :
    sortPages [⟨1, "a"⟩, ⟨3, "b"⟩, ⟨2, "c"⟩] =
      specStableSortByPageNumber [⟨1, "a"⟩, ⟨3, "b"⟩, ⟨2, "c"⟩] :=
  sortPages_eq_stable_sort_of_nodup [⟨1, "a"⟩, ⟨3, "b"⟩, ⟨2, "c"⟩] (by decide)

/-! ## Helper lemmas: the early-stopping page iteration -/

/-- The visited-page list is always an initial segment `page, page+1, ...`
of the remaining range. -/
theorem scrapeLoop_shape (resolve : Nat → Option String) :
    ∀ (fuel page : Nat) (seen : List String) (ec : Nat),
      ∃ k, k ≤ fuel ∧ (scrapeLoop resolve fuel page seen ec).1 = List.range' page k := by
  intro fuel
  induction fuel with
  | zero => intro page seen ec; exact ⟨0, Nat.le_refl _, rfl⟩
  | succ n ih =>
    intro page seen ec
    rcases hre : resolve page with _ | s
    · simp only [scrapeLoop, hre]
      by_cases h3 : 3 ≤ ec + 1
      · rw [if_pos h3]; exact ⟨1, by omega, rfl⟩
      · rw [if_neg h3]
        obtain ⟨k, hk, he⟩ := ih (page + 1) seen (ec + 1)
        exact ⟨k + 1, by omega, by simp [List.range'_succ, he]⟩
    · simp only [scrapeLoop, hre]
      by_cases hu : trimSpace s = ""
      · rw [if_pos hu]
        by_cases h3 : 3 ≤ ec + 1
        · rw [if_pos h3]; exact ⟨1, by omega, rfl⟩
        · rw [if_neg h3]
          obtain ⟨k, hk, he⟩ := ih (page + 1) seen (ec + 1)
          exact ⟨k + 1, by omega, by simp [List.range'_succ, he]⟩
      · rw [if_neg hu]
        by_cases hc : seen.contains (trimSpace s)
        · rw [if_pos hc]; exact ⟨1, by omega, rfl⟩
        · rw [if_neg hc]
          obtain ⟨k, hk, he⟩ := ih (page + 1) (trimSpace s :: seen) 0
          exact ⟨k + 1, by omega, by simp [List.range'_succ, he]⟩

/-- If pages `p` and `p+1` resolve to the same URL, the loop (started at or
before `p`) visits at most the pages up to `p+1`. -/
theorem scrapeLoop_dup_bound (resolve : Nat → Option String) (u : String) (p : Nat)
    (h1 : resolvedURL resolve p = some u) (h2 : resolvedURL resolve (p + 1) = some u) :
    ∀ (fuel page : Nat) (seen : List String) (ec : Nat), page ≤ p →
      (scrapeLoop resolve fuel page seen ec).1.length ≤ p + 2 - page := by
  intro fuel
  induction fuel with
  | zero => intro page seen ec h; simp [scrapeLoop]
  | succ n ih =>
    intro page seen ec hpage
    rcases Nat.lt_or_ge page p with hlt | hge
    · rcases hre : resolve page with _ | s
      · simp only [scrapeLoop, hre]
        by_cases h3 : 3 ≤ ec + 1
        · rw [if_pos h3]; simp; omega
        · rw [if_neg h3]
          have := ih (page + 1) seen (ec + 1) (by omega)
          simp only [List.length_cons]
          omega
      · simp only [scrapeLoop, hre]
        by_cases hu : trimSpace s = ""
        · rw [if_pos hu]
          by_cases h3 : 3 ≤ ec + 1
          · rw [if_pos h3]; simp; omega
          · rw [if_neg h3]
            have := ih (page + 1) seen (ec + 1) (by omega)
            simp only [List.length_cons]
            omega
        · rw [if_neg hu]
          by_cases hc : seen.contains (trimSpace s)
          · rw [if_pos hc]; simp; omega
          · rw [if_neg hc]
            have := ih (page + 1) (trimSpace s :: seen) 0 (by omega)
            simp only [List.length_cons]
            omega
    · have hpp : page = p := Nat.le_antisymm hpage hge
      subst hpp
      rcases hre : resolve page with _ | s
      · simp only [resolvedURL, hre] at h1
        exact absurd h1 (by simp)
      · simp only [resolvedURL, hre] at h1
        by_cases hu : trimSpace s = ""
        · rw [if_pos hu] at h1; exact absurd h1 (by simp)
        · rw [if_neg hu] at h1
          have hsu : trimSpace s = u := Option.some.inj h1
          simp only [scrapeLoop, hre]
          rw [if_neg hu]
          by_cases hc : seen.contains (trimSpace s)
          · rw [if_pos hc]; simp
          · rw [if_neg hc]
            simp only [List.length_cons]
            have hinner :
                (scrapeLoop resolve n (page + 1) (trimSpace s :: seen) 0).1.length ≤ 1 := by
              cases n with
              | zero => simp [scrapeLoop]
              | succ m =>
                rcases hre2 : resolve (page + 1) with _ | s2
                · simp only [resolvedURL, hre2] at h2
                  exact absurd h2 (by simp)
                · simp only [resolvedURL, hre2] at h2
                  by_cases hu2 : trimSpace s2 = ""
                  · rw [if_pos hu2] at h2; exact absurd h2 (by simp)
                  · rw [if_neg hu2] at h2
                    have hsu2 : trimSpace s2 = u := Option.some.inj h2
                    simp only [scrapeLoop, hre2]
                    rw [if_neg hu2]
                    have hcont : (trimSpace s :: seen).contains (trimSpace s2) = true := by
                      rw [hsu2, ← hsu]
                      simp [List.contains_cons]
                    rw [if_pos hcont]
                    simp
            omega

/-- If pages `p`, `p+1` and `p+2` all resolve to nothing, the loop (started
at or before `p`) visits at most the pages up to `p+2`. -/
theorem scrapeLoop_empty_bound (resolve : Nat → Option String) (p : Nat)
    (h1 : resolvedURL resolve p = none) (h2 : resolvedURL resolve (p + 1) = none)
    (h3 : resolvedURL resolve (p + 2) = none) :
    ∀ (fuel page : Nat) (seen : List String) (ec : Nat), page ≤ p →
      (scrapeLoop resolve fuel page seen ec).1.length ≤ p + 3 - page := by
  have hstep : ∀ (q : Nat), resolvedURL resolve q = none →
      ∀ (m : Nat) (seen : List String) (ec : Nat),
        (scrapeLoop resolve (m + 1) q seen ec).1 = [q] ∨
          (scrapeLoop resolve (m + 1) q seen ec).1 =
            q :: (scrapeLoop resolve m (q + 1) seen (ec + 1)).1 := by
    intro q hq m seen ec
    rcases hre : resolve q with _ | s
    · simp only [scrapeLoop, hre]
      by_cases hc3 : 3 ≤ ec + 1
      · rw [if_pos hc3]; exact Or.inl rfl
      · rw [if_neg hc3]; exact Or.inr rfl
    · simp only [resolvedURL, hre] at hq
      by_cases hu : trimSpace s = ""
      · simp only [scrapeLoop, hre]
        rw [if_pos hu]
        by_cases hc3 : 3 ≤ ec + 1
        · rw [if_pos hc3]; exact Or.inl rfl
        · rw [if_neg hc3]; exact Or.inr rfl
      · rw [if_neg hu] at hq
        exact absurd hq (by simp)
  have hlast : ∀ (m : Nat) (seen : List String) (ec : Nat),
      (scrapeLoop resolve m (p + 2) seen (ec + 2)).1.length ≤ 1 := by
    intro m seen ec
    cases m with
    | zero => simp [scrapeLoop]
    | succ m' =>
      rcases hstep (p + 2) h3 m' seen (ec + 2) with h | h
      · rw [h]; simp
      · rcases hre : resolve (p + 2) with _ | s
        · simp only [scrapeLoop, hre]
          rw [if_pos (by omega : 3 ≤ ec + 2 + 1)]
          simp
        · simp only [resolvedURL, hre] at h3
          by_cases hu : trimSpace s = ""
          · simp only [scrapeLoop, hre]
            rw [if_pos hu, if_pos (by omega : 3 ≤ ec + 2 + 1)]
            simp
          · rw [if_neg hu] at h3
            exact absurd h3 (by simp)
  intro fuel
  induction fuel with
  | zero => intro page seen ec h; simp [scrapeLoop]
  | succ n ih =>
    intro page seen ec hpage
    rcases Nat.lt_or_ge page p with hlt | hge
    · rcases hre : resolve page with _ | s
      · simp only [scrapeLoop, hre]
        by_cases hc3 : 3 ≤ ec + 1
        · rw [if_pos hc3]; simp; omega
        · rw [if_neg hc3]
          have := ih (page + 1) seen (ec + 1) (by omega)
          simp only [List.length_cons]
          omega
      · simp only [scrapeLoop, hre]
        by_cases hu : trimSpace s = ""
        · rw [if_pos hu]
          by_cases hc3 : 3 ≤ ec + 1
          · rw [if_pos hc3]; simp; omega
          · rw [if_neg hc3]
            have := ih (page + 1) seen (ec + 1) (by omega)
            simp only [List.length_cons]
            omega
        · rw [if_neg hu]
          by_cases hc : seen.contains (trimSpace s)
          · rw [if_pos hc]; simp; omega
          · rw [if_neg hc]
            have := ih (page + 1) (trimSpace s :: seen) 0 (by omega)
            simp only [List.length_cons]
            omega
    · have hpp : page = p := Nat.le_antisymm hpage hge
      subst hpp
      rcases hstep page h1 n seen ec with h | h
      · rw [h]; simp
      · rw [h]
        simp only [List.length_cons]
        have hmid : (scrapeLoop resolve n (page + 1) seen (ec + 1)).1.length ≤ 2 := by
          cases n with
          | zero => simp [scrapeLoop]
          | succ m =>
            rcases hstep (page + 1) h2 m seen (ec + 1) with h' | h'
            · rw [h']; simp
            · rw [h']
              simp only [List.length_cons]
              have hl' : (scrapeLoop resolve m (page + 1 + 1) seen (ec + 1 + 1)).1.length ≤ 1 :=
                hlast m seen ec
              omega
        omega

/-! ## Claim C2 -/

/-- C2 counterexample: with a page range ending at page 3 and every page
resolving to nothing, pages 1, 2, 3 are three consecutive pages resolving
to no image URL, yet the iteration still visits page 3 — the last page
index of the range — before stopping, so it does not stop before reaching
the last page index. -/
theorem scrape_stop_counterexample :
    resolvedURL (fun _ => none) 1 = none ∧
      resolvedURL (fun _ => none) 2 = none ∧
      resolvedURL (fun _ => none) 3 = none ∧
      (scrapeCatalogPages (fun _ => none) 3).1 = [1, 2, 3] ∧
      3 ∈ (scrapeCatalogPages (fun _ => none) 3).1 := by decide

/-- C2 (amended): if three consecutive pages resolve to the same image URL,
or three consecutive pages ending strictly before the last page index
resolve to no image URL, the page iteration stops before reaching the last
page index: the visited pages are exactly an initial segment `1..k` with
`k < maxPages`, so the last page — and every page after the stopping
point — is never visited.  (When three empty resolutions end exactly at
the last page index, the loop still visits that last page, which is what
the counterexample exhibits.) -/
theorem scrape_early_stop (resolve : Nat → Option String) (maxPages p : Nat)
    (hp : 1 ≤ p)
    (h : (∃ u, resolvedURL resolve p = some u ∧ resolvedURL resolve (p + 1) = some u ∧
            resolvedURL resolve (p + 2) = some u ∧ p + 2 ≤ maxPages) ∨
         (resolvedURL resolve p = none ∧ resolvedURL resolve (p + 1) = none ∧
            resolvedURL resolve (p + 2) = none ∧ p + 2 < maxPages)) :
    ∃ k, k < maxPages ∧ (scrapeCatalogPages resolve maxPages).1 = List.range' 1 k := by
  obtain ⟨k, _, he⟩ := scrapeLoop_shape resolve maxPages 1 [] 0
  have hk : (scrapeCatalogPages resolve maxPages).1.length = k := by
    rw [scrapeCatalogPages, he, List.length_range']
  refine ⟨k, ?_, he⟩
  rcases h with ⟨u, h1, h2, _, hle⟩ | ⟨h1, h2, h3, hlt⟩
  · have hb := scrapeLoop_dup_bound resolve u p h1 h2 maxPages 1 [] 0 hp
    rw [show (scrapeLoop resolve maxPages 1 [] 0).1 =
      (scrapeCatalogPages resolve maxPages).1 from rfl, hk] at hb
    omega
  · have hb := scrapeLoop_empty_bound resolve p h1 h2 h3 maxPages 1 [] 0 hp
    rw [show (scrapeLoop resolve maxPages 1 [] 0).1 =
      (scrapeCatalogPages resolve maxPages).1 from rfl, hk] at hb
    omega

/-- Witness for C2 (amended): pages 1, 2, 3 of a 4-page range all resolve to
the same URL; the loop stops after page 2. -/
theorem scrape_early_stop_witness :
    ∃ k, k < 4 ∧ (scrapeCatalogPages (fun _ => some "u") 4).1 = List.range' 1 k :=
  scrape_early_stop (fun _ => some "u") 4 1 (by decide)
    (Or.inl ⟨"u", by decide, by decide, by decide, by decide⟩)

/-! ## Claims C7, C8, C10 -/

/-- C7 counterexample: a GET completing with status 204 — a 200-range
status — still makes `downloadImage` return an error, because the code
checks `resp.StatusCode != http.StatusOK`, i.e. equality with 200 exactly,
not membership in the 200 range. -/
theorem download_status_range_counterexample :
    (downloadImage (.ok ⟨204, []⟩) true none none).1.isOk = false ∧
      200 ≤ 204 ∧ 204 < 300 := by decide

/-- C7 (amended): `downloadImage` returns Ok exactly when the GET succeeded
with status exactly 200 and the destination-file creation and the body copy
both succeed; in every other case — transport error, non-200 status,
create or copy failure — the failure is surfaced as a returned error value
(never an exception), with no internal retry. -/
theorem download_ok_iff (get : Except String HTTPResponse) (createOk : Bool)
    (copyFail : Option Nat) (prior : Option (List Nat)) :
    (downloadImage get createOk copyFail prior).1.isOk = true ↔
      (∃ r, get = .ok r ∧ r.statusCode = 200) ∧ createOk = true ∧ copyFail = none := by
  cases get with
  | error e => simp [downloadImage, Except.isOk, Except.toBool]
  | ok r =>
    by_cases hst : r.statusCode = 200
    · cases createOk <;> cases copyFail <;>
        simp [downloadImage, hst, Except.isOk, Except.toBool]
    · simp [downloadImage, hst, Except.isOk, Except.toBool]

/-- Witness for C7 (amended): a 200 GET with successful create and copy
returns Ok. -/
theorem download_ok_iff_witness :
    (downloadImage (.ok ⟨200, [7]⟩) true none none).1.isOk = true :=
  (download_ok_iff (.ok ⟨200, [7]⟩) true none none).2
    ⟨⟨⟨200, [7]⟩, rfl, rfl⟩, rfl, rfl⟩

/-- C8 counterexample: a 200 GET whose body copy fails after one byte
leaves the destination file in place holding the partial content `[1]`
(neither absent nor the full body), because `os.Create` truncated the file
before the copy and no cleanup happens on the error path. -/
theorem download_truncated_file_counterexample :
    (downloadImage (.ok ⟨200, [1, 2, 3]⟩) true (some 1) none).1.isOk = false ∧
      (downloadImage (.ok ⟨200, [1, 2, 3]⟩) true (some 1) none).2 = some [1] ∧
      some [1] ≠ (none : Option (List Nat)) ∧ ([1] : List Nat) ≠ [1, 2, 3] := by decide

/-- C8 (amended): when the GET returned status 200 and the body stream
fails after `k` bytes, the destination file has already been
created/truncated and is left containing exactly the first `k` bytes of
the body — a partial file is left in place, and callers must treat the
destination state as undefined. -/
theorem download_stream_fail_leaves_file (r : HTTPResponse) (k : Nat) (prior : Option (List Nat))
    (hst : r.statusCode = 200) :
    downloadImage (.ok r) true (some k) prior =
      (.error "copy failed", some (r.body.take k)) := by
  simp [downloadImage, hst]

/-- Witness for C8 (amended). -/
theorem download_stream_fail_witness :
    downloadImage (.ok ⟨200, [5, 6]⟩) true (some 1) none =
      (.error "copy failed", some [5]) := by
  simpa using download_stream_fail_leaves_file ⟨200, [5, 6]⟩ 1 none rfl

/-- C10: if the GET completes with a status other than 200, `downloadImage`
returns an error and the destination file keeps its prior state — the
status check precedes `os.Create`, so the file is neither created nor
truncated nor modified. -/
theorem download_bad_status_no_write (r : HTTPResponse) (createOk : Bool)
    (copyFail : Option Nat) (prior : Option (List Nat)) (hst : r.statusCode ≠ 200) :
    (downloadImage (.ok r) createOk copyFail prior).1.isOk = false ∧
      (downloadImage (.ok r) createOk copyFail prior).2 = prior := by
  simp [downloadImage, hst, Except.isOk, Except.toBool]

/-- Witness for C10: a 404 GET leaves the prior file content `[9]` intact. -/
theorem download_bad_status_no_write_witness :
    (downloadImage (.ok ⟨404, [1]⟩) true none (some [9])).1.isOk = false ∧
      (downloadImage (.ok ⟨404, [1]⟩) true none (some [9])).2 = some [9] :=
  download_bad_status_no_write ⟨404, [1]⟩ true none (some [9]) (by decide)

/-! ## Claim C6 -/

/-- The sequential page loop keeps exactly the pages of the range whose
render and download both succeed. -/
theorem runPagesLoop_eq_filter (cfg : ScraperConfig)
    (render : String → Except String String) (dl : String → String → Bool) :
    ∀ (count start : Nat),
      runPagesLoop cfg.FirstPage cfg.ID render dl count start =
        (List.range' start count).filter (fun p => pageSuccess cfg render dl p) := by
  intro count
  induction count with
  | zero => intro start; rfl
  | succ n ih =>
    intro start
    rw [List.range'_succ, List.filter_cons]
    cases hr : render (buildPageURL cfg.FirstPage start) with
    | error e =>
      have hps : pageSuccess cfg render dl start = false := by simp [pageSuccess, hr]
      simp [runPagesLoop, hr, hps, ih]
    | ok u =>
      cases hdl : dl u (pageImagePath cfg.ID start) with
      | false =>
        have hps : pageSuccess cfg render dl start = false := by
          simp [pageSuccess, hr, hdl]
        simp [runPagesLoop, hr, hdl, hps, ih]
      | true =>
        have hps : pageSuccess cfg render dl start = true := by
          simp [pageSuccess, hr, hdl]
        simp [runPagesLoop, hr, hdl, hps, ih]

/-- C6 counterexample: a run whose output-directory creation fails aborts
with an error even though the page-index pattern extracts fine from both
the first and the last page URL — so pattern extraction failure is not the
only fatal condition. -/
theorem run_abort_counterexample :
    (ScrapeAndDownloadFromConfig (.ok ⟨"id1", "c", "/page/1", "/page/2"⟩) false
        (fun _ => .ok "http://img") (fun _ _ => true)).isOk = false ∧
      (extractPageNumber "/page/1").isSome = true ∧
      (extractPageNumber "/page/2").isSome = true := by decide

/-- C6 (amended): a run aborts with an error exactly when loading the
config fails, creating the output directories fails, or the page-index
pattern cannot be extracted from the catalog's own first or last page URL;
and on a successful run every page of the range is present exactly when its
render and download both succeeded — a page-local failure (render error, no
image found, download error) only omits that page, it never makes the run
return an error. -/
theorem run_error_policy (loadResult : Except String ScraperConfig) (mkdirOk : Bool)
    (render : String → Except String String) (dl : String → String → Bool) :
    ((ScrapeAndDownloadFromConfig loadResult mkdirOk render dl).isOk = false ↔
        loadResult.isOk = false ∨ mkdirOk = false ∨
          ∃ cfg, loadResult = .ok cfg ∧
            (extractPageNumber cfg.FirstPage = none ∨
              extractPageNumber cfg.LastPage = none)) ∧
      ∀ cfg res, loadResult = .ok cfg →
        ScrapeAndDownloadFromConfig loadResult mkdirOk render dl = .ok res →
        ∃ fN lN, extractPageNumber cfg.FirstPage = some fN ∧
          extractPageNumber cfg.LastPage = some lN ∧
          res.pages = (List.range' fN (lN + 1 - fN)).filter
            (fun p => pageSuccess cfg render dl p) := by
  constructor
  · cases loadResult with
    | error e => simp [ScrapeAndDownloadFromConfig, Except.isOk, Except.toBool]
    | ok cfg =>
      cases mkdirOk with
      | false => simp [ScrapeAndDownloadFromConfig, Except.isOk, Except.toBool]
      | true =>
        cases hf : extractPageNumber cfg.FirstPage with
        | none => simp [ScrapeAndDownloadFromConfig, hf, Except.isOk, Except.toBool]
        | some fN =>
          cases hl : extractPageNumber cfg.LastPage with
          | none => simp [ScrapeAndDownloadFromConfig, hf, hl, Except.isOk, Except.toBool]
          | some lN => simp [ScrapeAndDownloadFromConfig, hf, hl, Except.isOk, Except.toBool]
  · intro cfg res hload hrun
    subst hload
    cases mkdirOk with
    | false => simp [ScrapeAndDownloadFromConfig] at hrun
    | true =>
      cases hf : extractPageNumber cfg.FirstPage with
      | none => simp [ScrapeAndDownloadFromConfig, hf] at hrun
      | some fN =>
        cases hl : extractPageNumber cfg.LastPage with
        | none => simp [ScrapeAndDownloadFromConfig, hf, hl] at hrun
        | some lN =>
          refine ⟨fN, lN, rfl, rfl, ?_⟩
          have hrun' : (Except.ok (RunResult.mk
              (match render cfg.CoverImage with
               | .error _ => false
               | .ok u => dl u (coverImagePath cfg.ID))
              (runPagesLoop cfg.FirstPage cfg.ID render dl (lN + 1 - fN) fN)) :
                Except String RunResult) = Except.ok res := by
            rw [← hrun]
            simp [ScrapeAndDownloadFromConfig, hf, hl]
          have hres := Except.ok.inj hrun'
          rw [← hres]
          exact runPagesLoop_eq_filter cfg render dl (lN + 1 - fN) fN

/-- Witness for C6 (amended): a config whose last page URL has no page
pattern makes the run abort. -/
theorem run_error_policy_witness :
    (ScrapeAndDownloadFromConfig (.ok (ScraperConfig.mk "i" "c" "/page/1" "/nope")) true
        (fun _ => .ok "http://img") (fun _ _ => true)).isOk = false :=
  (run_error_policy (.ok (ScraperConfig.mk "i" "c" "/page/1" "/nope")) true
      (fun _ => .ok "http://img") (fun _ _ => true)).1.mpr
    (Or.inr (Or.inr ⟨ScraperConfig.mk "i" "c" "/page/1" "/nope", rfl, Or.inr (by decide)⟩))

/-! ## Claim C1 -/

theorem foldl_pick_mem (xs : List Img) (x : Img) :
    xs.foldl (fun best im => if area best < area im then im else best) x = x ∨
      xs.foldl (fun best im => if area best < area im then im else best) x ∈ xs := by
  induction xs generalizing x with
  | nil => exact Or.inl rfl
  | cons y ys ih =>
    simp only [List.foldl_cons]
    by_cases hxy : area x < area y
    · rw [if_pos hxy]
      rcases ih y with h | h
      · exact Or.inr (by rw [h]; exact List.mem_cons_self y ys)
      · exact Or.inr (List.mem_cons_of_mem y h)
    · rw [if_neg hxy]
      rcases ih x with h | h
      · exact Or.inl h
      · exact Or.inr (List.mem_cons_of_mem y h)

theorem foldl_pick_ge_init (xs : List Img) (x : Img) :
    area x ≤ area (xs.foldl (fun best im => if area best < area im then im else best) x) := by
  induction xs generalizing x with
  | nil => exact Nat.le_refl _
  | cons y ys ih =>
    simp only [List.foldl_cons]
    by_cases hxy : area x < area y
    · rw [if_pos hxy]; exact Nat.le_trans (Nat.le_of_lt hxy) (ih y)
    · rw [if_neg hxy]; exact ih x

theorem foldl_pick_ge_mem (xs : List Img) (x : Img) :
    ∀ y ∈ xs,
      area y ≤ area (xs.foldl (fun best im => if area best < area im then im else best) x) := by
  induction xs generalizing x with
  | nil => simp
  | cons z zs ih =>
    intro y hy
    simp only [List.foldl_cons]
    rcases List.mem_cons.1 hy with rfl | hy
    · by_cases hxz : area x < area y
      · rw [if_pos hxz]; exact foldl_pick_ge_init zs y
      · rw [if_neg hxz]
        exact Nat.le_trans (Nat.le_of_not_lt hxz) (foldl_pick_ge_init zs x)
    · exact ih (if area x < area z then z else x) y hy

/-- The selector loop returns the first selector (in list order) whose
match passes the source checks. -/
theorem chainFirst_first_valid (d : Document) :
    ∀ (ls : List String) (i : Nat) (sel u : String),
      ls.get? i = some sel → (∀ s2 ∈ ls.take i, selSrc d s2 = none) →
      selSrc d sel = some u → chainFirst d ls = u := by
  intro ls
  induction ls with
  | nil => intro i sel u h _ _; simp at h
  | cons a rest ih =>
    intro i sel u hget htake hsel
    cases i with
    | zero =>
      simp only [List.get?] at hget
      cases hget
      simp only [chainFirst, hsel]
    | succ j =>
      have ha : selSrc d a = none := by
        refine htake a ?_
        rw [List.take_succ_cons]
        exact List.mem_cons_self a _
      simp only [chainFirst, ha]
      refine ih j sel u (by simpa using hget) ?_ hsel
      intro s2 hs2
      refine htake s2 ?_
      rw [List.take_succ_cons]
      exact List.mem_cons_of_mem a hs2

/-- C1: the locator applies the size-ranked scan first — if any image has
both effective dimensions over 500px, the result is the source of a
maximal-area such image and the selector chain is never consulted; only
when that scan is empty does the ordered selector chain run, and it
returns the first selector (in order) whose first match has a non-empty,
non-`.svg` source; in particular, when the size scan is empty, the six
earlier selectors yield nothing and `main img` has a valid match, that
match's source is the result. -/
theorem locator_strategy_order (d : Document) :
    (largeImages d ≠ [] →
      ∃ im, im ∈ largeImages d ∧ (∀ im2 ∈ largeImages d, area im2 ≤ area im) ∧
        jsLocate d = im.src) ∧
    (largeImages d = [] →
      (∀ (i : Nat) (sel u : String), selectors.get? i = some sel →
        (∀ s2 ∈ selectors.take i, selSrc d s2 = none) → selSrc d sel = some u →
          jsLocate d = u) ∧
      (∀ u, (∀ s2 ∈ selectors.take 6, selSrc d s2 = none) →
        selSrc d "main img" = some u → jsLocate d = u)) := by
  constructor
  · intro hne
    rcases hl : largeImages d with _ | ⟨x, xs⟩
    · exact absurd hl hne
    · refine ⟨xs.foldl (fun best im => if area best < area im then im else best) x,
        ?_, ?_, ?_⟩
      · rcases foldl_pick_mem xs x with h | h
        · rw [h]; exact List.mem_cons_self x xs
        · exact List.mem_cons_of_mem x h
      · intro im2 him2
        rcases List.mem_cons.1 him2 with rfl | him2
        · exact foldl_pick_ge_init xs im2
        · exact foldl_pick_ge_mem xs x im2 him2
      · simp only [jsLocate, hl, pickLargest]
  · intro hemp
    have hchain : jsLocate d = chainFirst d selectors := by
      simp only [jsLocate, hemp, pickLargest]
    constructor
    · intro i sel u hget htake hsel
      rw [hchain]
      exact chainFirst_first_valid d selectors i sel u hget htake hsel
    · intro u htake hsel
      rw [hchain]
      exact chainFirst_first_valid d selectors 6 "main img" u rfl htake hsel

/-- Witness for C1: an empty image list (size scan finds nothing), the six
earlier selectors match nothing, `main img` matches an image with a valid
source — that source is returned. -/
theorem locator_strategy_order_witness :
    jsLocate (Document.mk []
        (fun s => if s = "main img" then some (Img.mk 0 0 0 0 "http://ex/img.jpg")
          else none)) = "http://ex/img.jpg" :=
  ((locator_strategy_order (Document.mk []
        (fun s => if s = "main img" then some (Img.mk 0 0 0 0 "http://ex/img.jpg")
          else none))).2 rfl).2 "http://ex/img.jpg" (by decide) (by decide)

/-! ## Helper lemmas: the regex scans of the URL templater -/

theorem isPrefixOf_append_self : ∀ (p x : List Char), p.isPrefixOf (p ++ x) = true := by
  intro p
  induction p with
  | nil => intro x; simp [List.isPrefixOf]
  | cons c p' ih => intro x; simp [List.isPrefixOf, ih x]

/-- The pattern matches at the start of `pagePat ++ (d ++ b)` when `d`
starts with a digit. -/
theorem matchAt_pagePat (d b : List Char) (hd : d ≠ [])
    (hdig : ∀ c ∈ d, c.isDigit = true) :
    matchAt (pagePat ++ (d ++ b)) = true := by
  rcases d with _ | ⟨e, d'⟩
  · exact absurd rfl hd
  · simp only [matchAt, isPrefixOf_append_self, Bool.true_and]
    rw [List.drop_left]
    exact hdig e (List.mem_cons_self e d')

/-- A maximal digit run: `takeWhile isDigit` over `d ++ b` is exactly `d`
when `d` is all digits and `b` does not start with one. -/
theorem takeWhile_digit_append :
    ∀ (d b : List Char), (∀ c ∈ d, c.isDigit = true) → headDigit b = false →
      (d ++ b).takeWhile Char.isDigit = d := by
  intro d
  induction d with
  | nil =>
    intro b _ hb
    cases b with
    | nil => rfl
    | cons c cs =>
      simp only [headDigit] at hb
      simp [List.takeWhile_cons, hb]
  | cons e d' ih =>
    intro b hall hb
    simp [List.takeWhile_cons, hall e (List.mem_cons_self e d'),
      ih b (fun c hc => hall c (List.mem_cons_of_mem e hc)) hb]

/-- One step of the replace scan on a non-matching head. -/
theorem buildAuxF_cons_nomatch (new : List Char) (fuel : Nat) (c : Char)
    (rest : List Char) (hm : matchAt (c :: rest) = false) :
    buildAuxF new (fuel + 1) (c :: rest) = c :: buildAuxF new fuel rest := by
  simp [buildAuxF, hm]

/-- One step of the replace scan on a matching head. -/
theorem buildAuxF_cons_match (new : List Char) (fuel : Nat) (c : Char)
    (rest : List Char) (hm : matchAt (c :: rest) = true) :
    buildAuxF new (fuel + 1) (c :: rest) =
      pagePat ++ new ++ buildAuxF new fuel
        ((c :: rest).drop
          (pagePat.length + (((c :: rest).drop pagePat.length).takeWhile Char.isDigit).length)) := by
  simp [buildAuxF, hm]

/-- The fuel does not matter as long as it covers the length. -/
theorem buildAuxF_fuel_irrel (new : List Char) :
    ∀ (f₁ f₂ : Nat) (s : List Char), s.length ≤ f₁ → s.length ≤ f₂ →
      buildAuxF new f₁ s = buildAuxF new f₂ s := by
  intro f₁
  induction f₁ with
  | zero =>
    intro f₂ s h1 _
    have : s = [] := List.length_eq_zero.1 (Nat.le_zero.1 h1)
    subst this
    cases f₂ <;> rfl
  | succ g ih =>
    intro f₂ s h1 h2
    cases s with
    | nil => cases f₂ <;> rfl
    | cons c rest =>
      cases f₂ with
      | zero => simp at h2
      | succ g₂ =>
        cases hm : matchAt (c :: rest) with
        | false =>
          rw [buildAuxF_cons_nomatch new g c rest hm,
            buildAuxF_cons_nomatch new g₂ c rest hm]
          have hr : rest.length ≤ g := by simpa using h1
          have hr2 : rest.length ≤ g₂ := by simpa using h2
          rw [ih g₂ rest hr hr2]
        | true =>
          rw [buildAuxF_cons_match new g c rest hm,
            buildAuxF_cons_match new g₂ c rest hm]
          have hlen : ((c :: rest).drop
              (pagePat.length +
                (((c :: rest).drop pagePat.length).takeWhile Char.isDigit).length)).length ≤
              rest.length := by
            rw [List.length_drop]
            simp only [List.length_cons, pagePat]
            omega
          have h1' : rest.length + 1 ≤ g + 1 := by simpa using h1
          have h2' : rest.length + 1 ≤ g₂ + 1 := by simpa using h2
          rw [ih g₂ _ (by omega) (by omega)]

/-- Scanning through a match-free prefix copies it verbatim. -/
theorem buildAuxL_append_pass (new : List Char) :
    ∀ (a r : List Char),
      (∀ t ∈ (a ++ r).tails, r.length < t.length → matchAt t = false) →
      buildAuxL new (a ++ r) = a ++ buildAuxL new r := by
  intro a
  induction a with
  | nil => intro r _; simp
  | cons c a' ih =>
    intro r h
    have hm : matchAt (c :: (a' ++ r)) = false := by
      refine h (c :: (a' ++ r)) ((List.mem_tails _ _).2 (List.suffix_refl _)) ?_
      simp only [List.length_cons, List.length_append]
      omega
    show buildAuxF new ((a' ++ r).length + 1) (c :: (a' ++ r)) =
      c :: a' ++ buildAuxL new r
    rw [buildAuxF_cons_nomatch new (a' ++ r).length (c) (a' ++ r) hm]
    have : buildAuxF new (a' ++ r).length (a' ++ r) = buildAuxL new (a' ++ r) := rfl
    rw [this, ih r (fun t ht hlen => h t ((List.mem_tails _ _).2
      (((List.mem_tails _ _).1 ht).trans (List.suffix_cons c (a' ++ r)))) hlen)]
    rfl

/-- Scanning a match replaces `pagePat ++ d` and continues after it. -/
theorem buildAuxL_match (new d b : List Char) (hd : d ≠ [])
    (hdig : ∀ c ∈ d, c.isDigit = true) (hb : headDigit b = false) :
    buildAuxL new (pagePat ++ (d ++ b)) = pagePat ++ (new ++ buildAuxL new b) := by
  have hm : matchAt (pagePat ++ (d ++ b)) = true := matchAt_pagePat d b hd hdig
  have hs : pagePat ++ (d ++ b) = '/' :: ("page/".data ++ (d ++ b)) := rfl
  show buildAuxF new (pagePat ++ (d ++ b)).length (pagePat ++ (d ++ b)) =
    pagePat ++ (new ++ buildAuxL new b)
  rw [show (pagePat ++ (d ++ b)).length = ("page/".data ++ (d ++ b)).length + 1 by
    rw [hs]; rfl]
  rw [hs] at hm
  rw [hs, buildAuxF_cons_match new _ '/' _ hm, ← hs]
  have hdrop6 : (pagePat ++ (d ++ b)).drop pagePat.length = d ++ b := List.drop_left _ _
  rw [hdrop6, takeWhile_digit_append d b hdig hb]
  have hdropAll : (pagePat ++ (d ++ b)).drop (pagePat.length + d.length) = b := by
    rw [show pagePat ++ (d ++ b) = (pagePat ++ d) ++ b from by
      rw [List.append_assoc]]
    rw [show pagePat.length + d.length = (pagePat ++ d).length from by
      rw [List.length_append]]
    exact List.drop_left _ _
  rw [hdropAll]
  have hfuel : buildAuxF new ("page/".data ++ (d ++ b)).length b = buildAuxL new b := by
    refine buildAuxF_fuel_irrel new _ _ b ?_ (Nat.le_refl _)
    simp only [List.length_append]
    omega
  rw [hfuel, List.append_assoc]

/-- A match-free string is left unchanged by the replace scan. -/
theorem buildAuxL_id (new : List Char) :
    ∀ s, (∀ t ∈ s.tails, matchAt t = false) → buildAuxL new s = s := by
  intro s
  induction s with
  | nil => intro _; rfl
  | cons c rest ih =>
    intro h
    have hm : matchAt (c :: rest) = false :=
      h (c :: rest) ((List.mem_tails _ _).2 (List.suffix_refl _))
    show buildAuxF new (rest.length + 1) (c :: rest) = c :: rest
    rw [buildAuxF_cons_nomatch new rest.length c rest hm]
    have : buildAuxF new rest.length rest = buildAuxL new rest := rfl
    rw [this, ih (fun t ht => h t ((List.mem_tails _ _).2
      (((List.mem_tails _ _).1 ht).trans (List.suffix_cons c rest))))]

/-- The extract scan skips a match-free prefix. -/
theorem extractAux_append_pass :
    ∀ (a r : List Char),
      (∀ t ∈ (a ++ r).tails, r.length < t.length → matchAt t = false) →
      extractAux (a ++ r) = extractAux r := by
  intro a
  induction a with
  | nil => intro r _; rfl
  | cons c a' ih =>
    intro r h
    have hm : matchAt (c :: (a' ++ r)) = false := by
      refine h (c :: (a' ++ r)) ((List.mem_tails _ _).2 (List.suffix_refl _)) ?_
      simp only [List.length_cons, List.length_append]
      omega
    show extractAux (c :: (a' ++ r)) = extractAux r
    rw [show extractAux (c :: (a' ++ r)) = extractAux (a' ++ r) by
      simp [extractAux, hm]]
    exact ih r (fun t ht hlen => h t ((List.mem_tails _ _).2
      (((List.mem_tails _ _).1 ht).trans (List.suffix_cons c (a' ++ r)))) hlen)

/-- One step of the extract scan on a matching head. -/
theorem extractAux_cons_match (c : Char) (rest : List Char)
    (hm : matchAt (c :: rest) = true) :
    extractAux (c :: rest) =
      some (digitsToNat (((c :: rest).drop pagePat.length).takeWhile Char.isDigit)) := by
  simp [extractAux, hm]

/-- The extract scan reads the digit group of a match. -/
theorem extractAux_match (d b : List Char) (hd : d ≠ [])
    (hdig : ∀ c ∈ d, c.isDigit = true) (hb : headDigit b = false) :
    extractAux (pagePat ++ (d ++ b)) = some (digitsToNat d) := by
  have hm : matchAt (pagePat ++ (d ++ b)) = true := matchAt_pagePat d b hd hdig
  have hs : pagePat ++ (d ++ b) = '/' :: ("page/".data ++ (d ++ b)) := rfl
  rw [hs] at hm
  rw [hs, extractAux_cons_match '/' ("page/".data ++ (d ++ b)) hm, ← hs]
  rw [show (pagePat ++ (d ++ b)).drop pagePat.length = d ++ b from List.drop_left _ _]
  rw [takeWhile_digit_append d b hdig hb]

/-! ## Claims C4 and C5 -/

/-- C4 counterexample: on a template with two numeric page segments,
`buildPageURL` silently substitutes BOTH segments (the regex replace is
replace-all, and the function is total — it cannot fail), instead of
matching once at the first occurrence or failing loudly. -/
theorem buildPageURL_multi_counterexample :
    buildPageURL "x/page/1/y/page/2" 9 = "x/page/9/y/page/9" ∧
      "x/page/9/y/page/9" ≠ "x/page/9/y/page/2" := by decide

/-- C4 (amended): `extractPageNumber` reads the pattern at its first
occurrence (anything after the first match is irrelevant to the value),
while `buildPageURL` substitutes the page number at every occurrence of
`/page/<digits>` and never fails: a template with two numeric page
segments is silently rewritten at both. -/
theorem templater_first_and_all :
    (∀ (a d b : List Char), d ≠ [] → (∀ c ∈ d, c.isDigit = true) →
      headDigit b = false →
      (∀ t ∈ (a ++ (pagePat ++ (d ++ b))).tails,
        (pagePat ++ (d ++ b)).length < t.length → matchAt t = false) →
      extractPageNumber (String.mk (a ++ (pagePat ++ (d ++ b)))) =
        some (digitsToNat d)) ∧
    (∀ (a d₁ m d₂ b : List Char) (n : Nat),
      d₁ ≠ [] → (∀ c ∈ d₁, c.isDigit = true) →
      d₂ ≠ [] → (∀ c ∈ d₂, c.isDigit = true) →
      headDigit (m ++ (pagePat ++ (d₂ ++ b))) = false → headDigit b = false →
      (∀ t ∈ (a ++ (pagePat ++ (d₁ ++ (m ++ (pagePat ++ (d₂ ++ b)))))).tails,
        (pagePat ++ (d₁ ++ (m ++ (pagePat ++ (d₂ ++ b))))).length < t.length →
          matchAt t = false) →
      (∀ t ∈ (m ++ (pagePat ++ (d₂ ++ b))).tails,
        (pagePat ++ (d₂ ++ b)).length < t.length → matchAt t = false) →
      (∀ t ∈ b.tails, matchAt t = false) →
      buildPageURL (String.mk (a ++ (pagePat ++ (d₁ ++ (m ++ (pagePat ++ (d₂ ++ b))))))) n =
        String.mk (a ++ (pagePat ++ ((Nat.repr n).data ++
          (m ++ (pagePat ++ ((Nat.repr n).data ++ b))))))) := by
  constructor
  · intro a d b hd hdig hb hpass
    show extractAux (a ++ (pagePat ++ (d ++ b))) = some (digitsToNat d)
    rw [extractAux_append_pass a _ hpass]
    exact extractAux_match d b hd hdig hb
  · intro a d₁ m d₂ b n hd1 hdig1 hd2 hdig2 hht hhb hA hM hB
    show String.mk (buildAuxL (Nat.repr n).data
        (a ++ (pagePat ++ (d₁ ++ (m ++ (pagePat ++ (d₂ ++ b))))))) = _
    rw [buildAuxL_append_pass (Nat.repr n).data a _ hA]
    rw [buildAuxL_match (Nat.repr n).data d₁ (m ++ (pagePat ++ (d₂ ++ b))) hd1 hdig1 hht]
    rw [buildAuxL_append_pass (Nat.repr n).data m _ hM]
    rw [buildAuxL_match (Nat.repr n).data d₂ b hd2 hdig2 hhb]
    rw [buildAuxL_id (Nat.repr n).data b hB]

/-- Witness for C4 (amended): both numeric segments of
`x/page/1/y/page/2` are rewritten to 9. -/
theorem templater_first_and_all_witness :
    buildPageURL (String.mk ("x".data ++ (pagePat ++ (['1'] ++
        ("/y".data ++ (pagePat ++ (['2'] ++ ([] : List Char)))))))) 9 =
      String.mk ("x".data ++ (pagePat ++ ((Nat.repr 9).data ++
        ("/y".data ++ (pagePat ++ ((Nat.repr 9).data ++ ([] : List Char))))))) :=
  templater_first_and_all.2 "x".data ['1'] "/y".data ['2'] [] 9
    (by decide) (by decide) (by decide) (by decide) (by decide) (by decide)
    (by decide) (by decide) (by decide)

/-- C5 counterexample: `/page/007` round-trips to `/page/7`, not to itself
(the extracted index 7 is rebuilt without the leading zeroes), so
`buildPageURL(u, extractPageNumber(u))` is not the identity on every URL
containing a valid page pattern. -/
theorem roundtrip_counterexample :
    extractPageNumber "/page/007" = some 7 ∧
      buildPageURL "/page/007" 7 = "/page/7" ∧ "/page/7" ≠ "/page/007" := by decide

/-- C5 (amended): on a URL with exactly one occurrence of the page pattern
whose digit run is in canonical decimal form (no leading zeroes),
substituting the extracted page index back reproduces the URL. -/
theorem buildPageURL_extract_roundtrip (a d b : List Char)
    (hd : d ≠ []) (hdig : ∀ c ∈ d, c.isDigit = true) (hb : headDigit b = false)
    (huniq : ∀ t ∈ (a ++ (pagePat ++ (d ++ b))).tails, matchAt t = true →
      t = pagePat ++ (d ++ b))
    (hcanon : (Nat.repr (digitsToNat d)).data = d) :
    extractPageNumber (String.mk (a ++ (pagePat ++ (d ++ b)))) = some (digitsToNat d) ∧
      buildPageURL (String.mk (a ++ (pagePat ++ (d ++ b)))) (digitsToNat d) =
        String.mk (a ++ (pagePat ++ (d ++ b))) := by
  have hpass : ∀ t ∈ (a ++ (pagePat ++ (d ++ b))).tails,
      (pagePat ++ (d ++ b)).length < t.length → matchAt t = false := by
    intro t ht hlen
    cases hmt : matchAt t with
    | false => rfl
    | true =>
      rw [huniq t ht hmt] at hlen
      exact absurd hlen (Nat.lt_irrefl _)
  have hbno : ∀ t ∈ b.tails, matchAt t = false := by
    intro t ht
    cases hmt : matchAt t with
    | false => rfl
    | true =>
      have htb : t <:+ b := (List.mem_tails _ _).1 ht
      have hts : t <:+ a ++ (pagePat ++ (d ++ b)) :=
        htb.trans ⟨a ++ (pagePat ++ d), by simp⟩
      have heq := huniq t ((List.mem_tails _ _).2 hts) hmt
      have hlb : t.length ≤ b.length := htb.length_le
      rw [heq] at hlb
      simp only [List.length_append, pagePat, List.length_cons] at hlb
      omega
  constructor
  · show extractAux (a ++ (pagePat ++ (d ++ b))) = some (digitsToNat d)
    rw [extractAux_append_pass a _ hpass]
    exact extractAux_match d b hd hdig hb
  · show String.mk (buildAuxL (Nat.repr (digitsToNat d)).data
        (a ++ (pagePat ++ (d ++ b)))) = _
    rw [hcanon]
    rw [buildAuxL_append_pass d a _ hpass]
    rw [buildAuxL_match d d b hd hdig hb]
    rw [buildAuxL_id d b hbno]

/-- Witness for C5 (amended): `https://ex/page/12.html` round-trips. -/
theorem buildPageURL_extract_roundtrip_witness :
    extractPageNumber (String.mk ("https://ex".data ++
        (pagePat ++ (['1', '2'] ++ ".html".data)))) = some (digitsToNat ['1', '2']) ∧
      buildPageURL (String.mk ("https://ex".data ++
          (pagePat ++ (['1', '2'] ++ ".html".data)))) (digitsToNat ['1', '2']) =
        String.mk ("https://ex".data ++ (pagePat ++ (['1', '2'] ++ ".html".data))) :=
  buildPageURL_extract_roundtrip "https://ex".data ['1', '2'] ".html".data
    (by decide) (by decide) (by decide) (by decide) (by decide)

end BestDeal
